import Mathlib

/-!
Verification of the diabetes-prediction application (`final.py`).

The development shallowly embeds the non-UI core of the program:
the field range table and input validation (`FIELD_RANGES`,
`validate_inputs`), the single prediction flow (`predict_diabetes`),
the CSV result recorder (`save_prediction`), the batch predictor
(`batch_predict`), and the credential store (`UserDatabase` with
`hash_password`, `validate_email`, `register_user`,
`authenticate_user`).  SHA-256 is implemented concretely, following
`hashlib.sha256(password.encode()).hexdigest()`.
-/

deriving instance DecidableEq for Except

namespace DiabetesApp

/-! ### SHA-256 (model of `hashlib.sha256(...).hexdigest()`) -/

/-- 2^32, the word modulus of SHA-256. -/
def M32 : Nat := 4294967296

/-- Right rotation of a 32-bit word. -/
def rotr (n x : Nat) : Nat := ((x >>> n) ||| (x <<< (32 - n))) % M32

/-- Small sigma 0 of the SHA-256 message schedule. -/
def sig0 (x : Nat) : Nat := (rotr 7 x) ^^^ (rotr 18 x) ^^^ (x >>> 3)

/-- Small sigma 1 of the SHA-256 message schedule. -/
def sig1 (x : Nat) : Nat := (rotr 17 x) ^^^ (rotr 19 x) ^^^ (x >>> 10)

/-- Big sigma 0 of the SHA-256 compression function. -/
def bsig0 (x : Nat) : Nat := (rotr 2 x) ^^^ (rotr 13 x) ^^^ (rotr 22 x)

/-- Big sigma 1 of the SHA-256 compression function. -/
def bsig1 (x : Nat) : Nat := (rotr 6 x) ^^^ (rotr 11 x) ^^^ (rotr 25 x)

/-- SHA-256 choice function. -/
def chF (e f g : Nat) : Nat := (e &&& f) ^^^ ((e ^^^ 4294967295) &&& g)

/-- SHA-256 majority function. -/
def majF (a b c : Nat) : Nat := (a &&& b) ^^^ (a &&& c) ^^^ (b &&& c)

/-- The 64 SHA-256 round constants (in decimal). -/
def K256 : List Nat :=
  [1116352408, 1899447441, 3049323471, 3921009573,
   961987163, 1508970993, 2453635748, 2870763221,
   3624381080, 310598401, 607225278, 1426881987,
   1925078388, 2162078206, 2614888103, 3248222580,
   3835390401, 4022224774, 264347078, 604807628,
   770255983, 1249150122, 1555081692, 1996064986,
   2554220882, 2821834349, 2952996808, 3210313671,
   3336571891, 3584528711, 113926993, 338241895,
   666307205, 773529912, 1294757372, 1396182291,
   1695183700, 1986661051, 2177026350, 2456956037,
   2730485921, 2820302411, 3259730800, 3345764771,
   3516065817, 3600352804, 4094571909, 275423344,
   430227734, 506948616, 659060556, 883997877,
   958139571, 1322822218, 1537002063, 1747873779,
   1955562222, 2024104815, 2227730452, 2361852424,
   2428436474, 2756734187, 3204031479, 3329325298]

/-- The SHA-256 working state: eight 32-bit words. -/
abbrev St8 := Nat × Nat × Nat × Nat × Nat × Nat × Nat × Nat

/-- The SHA-256 initial hash value (in decimal). -/
def IV256 : St8 :=
  (1779033703, 3144134277, 1013904242, 2773480762,
   1359893119, 2600822924, 528734635, 1541459225)

/-- Big-endian 8-byte encoding of a natural number (the length field). -/
def be64 (n : Nat) : List Nat :=
  (List.range 8).map (fun i => (n >>> (8 * (7 - i))) % 256)

/-- SHA-256 padding: append 0x80, zeros to 56 mod 64, then the bit length. -/
def sha256pad (msg : List Nat) : List Nat :=
  let L := msg.length
  msg ++ [128] ++ List.replicate ((119 - (L % 64)) % 64) 0 ++ be64 (L * 8)

/-- Split a byte list into 64-byte blocks (its length is a multiple of 64). -/
def toBlocksAux : Nat → List Nat → List (List Nat)
  | 0, _ => []
  | k + 1, l => l.take 64 :: toBlocksAux k (l.drop 64)

/-- All 64-byte blocks of a padded message. -/
def toBlocks (l : List Nat) : List (List Nat) := toBlocksAux (l.length / 64) l

/-- The 16 initial 32-bit schedule words of one block, big-endian. -/
def blockWords (b : List Nat) : List Nat :=
  (List.range 16).map (fun i =>
    b.getD (4 * i) 0 * 16777216 + b.getD (4 * i + 1) 0 * 65536 +
    b.getD (4 * i + 2) 0 * 256 + b.getD (4 * i + 3) 0)

/-- One extension step of the message schedule. -/
def schedStep (w : List Nat) : List Nat :=
  let n := w.length
  w ++ [(w.getD (n - 16) 0 + sig0 (w.getD (n - 15) 0) +
         w.getD (n - 7) 0 + sig1 (w.getD (n - 2) 0)) % M32]

/-- Extend the message schedule by `k` words. -/
def schedExtend : Nat → List Nat → List Nat
  | 0, w => w
  | k + 1, w => schedExtend k (schedStep w)

/-- One round of the SHA-256 compression function. -/
def roundStep (s : St8) (wk : Nat × Nat) : St8 :=
  let (a, b, c, d, e, f, g, h) := s
  let t1 := (h + bsig1 e + chF e f g + wk.2 + wk.1) % M32
  let t2 := (bsig0 a + majF a b c) % M32
  ((t1 + t2) % M32, a, b, c, (d + t1) % M32, e, f, g)

/-- Process one 64-byte block, updating the running hash value. -/
def processBlock (h : St8) (b : List Nat) : St8 :=
  let w := schedExtend 48 (blockWords b)
  let s := (w.zip K256).foldl roundStep h
  ((h.1 + s.1) % M32,
   (h.2.1 + s.2.1) % M32,
   (h.2.2.1 + s.2.2.1) % M32,
   (h.2.2.2.1 + s.2.2.2.1) % M32,
   (h.2.2.2.2.1 + s.2.2.2.2.1) % M32,
   (h.2.2.2.2.2.1 + s.2.2.2.2.2.1) % M32,
   (h.2.2.2.2.2.2.1 + s.2.2.2.2.2.2.1) % M32,
   (h.2.2.2.2.2.2.2 + s.2.2.2.2.2.2.2) % M32)

/-- The eight 32-bit words of the SHA-256 digest of a byte list. -/
def sha256Words (msg : List Nat) : List Nat :=
  let h := (toBlocks (sha256pad msg)).foldl processBlock IV256
  [h.1, h.2.1, h.2.2.1, h.2.2.2.1, h.2.2.2.2.1,
   h.2.2.2.2.2.1, h.2.2.2.2.2.2.1, h.2.2.2.2.2.2.2]

/-- Lower-case hex digit for a value below 16. -/
def hexDigit (n : Nat) : Char := "0123456789abcdef".data.getD n '0'

/-- Fixed-width (8 character) lower-case hex rendering of a 32-bit word. -/
def word8Hex (w : Nat) : List Char :=
  (List.range 8).map (fun i => hexDigit ((w >>> (4 * (7 - i))) % 16))

/-- The 64-character lower-case hex digest, as `hexdigest()` returns it. -/
def sha256Hex (msg : List Nat) : String :=
  String.mk ((sha256Words msg).map word8Hex).flatten

/-- UTF-8 encoding of one character, as Python `str.encode()` produces. -/
def utf8Char (c : Char) : List Nat :=
  let n := c.toNat
  if n < 128 then [n]
  else if n < 2048 then [192 ||| (n >>> 6), 128 ||| (n &&& 63)]
  else if n < 65536 then
    [224 ||| (n >>> 12), 128 ||| ((n >>> 6) &&& 63), 128 ||| (n &&& 63)]
  else
    [240 ||| (n >>> 18), 128 ||| ((n >>> 12) &&& 63),
     128 ||| ((n >>> 6) &&& 63), 128 ||| (n &&& 63)]

/-- UTF-8 encoding of a string (`password.encode()` in the source). -/
def utf8Encode (s : String) : List Nat := (s.data.map utf8Char).flatten

/-! ### Field ranges and input validation (`FIELD_RANGES`, `validate_inputs`) -/

/-- The `FIELD_RANGES` table from the source: each declared field with its
inclusive numeric bounds, in declaration order.  Numeric values are
modelled as rationals. -/
def FIELD_RANGES : List (String × ℚ × ℚ) :=
  [("Pregnancies", 0, 20),
   ("Glucose", 0, 300),
   ("Blood Pressure", 0, 200),
   ("Skin Thickness", 0, 100),
   ("Insulin", 0, 850),
   ("BMI", 0, 70),
   ("Diabetes Pedigree", 0, mkRat 5 2),
   ("Age", 0, 120)]

/-- The outcome of Python `float(var.get())` on one form entry: either the
text parses to a (finite) numeric value, or it is non-numeric and `float`
raises `ValueError` carrying the offending text. -/
inductive RawEntry
  | num (v : ℚ)
  | nonNum (s : String)
deriving DecidableEq, Repr

/-- The two failures `validate_inputs` can raise: the `ValueError` coming
from `float()` on non-numeric text, and the `ValueError` raised by the
range check, which carries the field and its bounds. -/
inductive VError
  | parseError (field raw : String)
  | rangeError (field : String) (lo hi : ℚ)
deriving DecidableEq, Repr

/-- Decimal rendering of the bound values as Python prints them
(integral bounds without a decimal point, `2.5` with one digit). -/
def pyShow (q : ℚ) : String :=
  if q.den = 1 then toString q.num
  else toString (q.num / q.den) ++ "." ++ toString (q.num * 10 / q.den % 10)

/-- The message of the `ValueError` that `validate_inputs` raises, after the
wrapping `Invalid {field}: {str(e)}` of the handler. -/
def errMsg : VError → String
  | .parseError f raw =>
      "Invalid " ++ f ++ ": could not convert string to float: " ++ raw
  | .rangeError f lo hi =>
      "Invalid " ++ f ++ ": " ++ f ++ " must be between " ++
        pyShow lo ++ " and " ++ pyShow hi

/-- One loop iteration of `validate_inputs`: parse the entry, then check
`min_val <= value <= max_val`, raising the range `ValueError` otherwise. -/
def checkField (field : String) (lo hi : ℚ) (e : RawEntry) : Except VError ℚ :=
  match e with
  | .nonNum s => .error (.parseError field s)
  | .num v => if lo ≤ v ∧ v ≤ hi then .ok v else .error (.rangeError field lo hi)

/-- The loop of `validate_inputs` over `zip(FIELD_RANGES.keys(), entry_vars)`:
first failure aborts, success collects `values[field] = value` in order. -/
def validateZip : List ((String × ℚ × ℚ) × RawEntry) → Except VError (List (String × ℚ))
  | [] => .ok []
  | (fr, e) :: rest =>
    match checkField fr.1 fr.2.1 fr.2.2 e with
    | .error err => .error err
    | .ok v =>
      match validateZip rest with
      | .error err => .error err
      | .ok vs => .ok ((fr.1, v) :: vs)

/-- `validate_inputs` from the source: the form entries (one per declared
field, in declaration order) are validated against `FIELD_RANGES`; the
returned dictionary maps each field to its parsed value. -/
def validate_inputs (entries : List RawEntry) : Except VError (List (String × ℚ)) :=
  validateZip (FIELD_RANGES.zip entries)

/-- The numeric value carried by an entry (defaulting on non-numeric text);
on entries that pass validation this is the value the dictionary holds. -/
def entryVal : RawEntry → ℚ
  | .num v => v
  | .nonNum _ => 0

/-! ### Single prediction (`predict_diabetes`) -/

/-- The loaded classifier, abstracted: `predictClass` is
`model.predict(x)[0]` (the discrete class label) and `posProb` is
`model.predict_proba(x)[0][1]` (the positive-class probability), both as
functions of the 8-entry feature row. -/
structure PredModel where
  predictClass : List ℚ → ℤ
  posProb : List ℚ → ℚ

/-- The feature row `[[values[field] for field in FIELD_RANGES.keys()]]`
built from the validated dictionary (every declared field is present when
validation succeeded). -/
def inputVector (values : List (String × ℚ)) : List ℚ :=
  FIELD_RANGES.map (fun fr => (values.lookup fr.1).getD 0)

/-- The outcome and probability computed by `predict_diabetes` on a
validated vector: `"Diabetic" if prediction[0] == 1 else "Non-Diabetic"`,
probability `predict_proba(...)[0][1]`. -/
def predict_diabetes (m : PredModel) (entries : List RawEntry) :
    Except VError (String × ℚ) :=
  match validate_inputs entries with
  | .error e => .error e
  | .ok values =>
    let vec := inputVector values
    .ok (if m.predictClass vec = 1 then "Diabetic" else "Non-Diabetic",
         m.posProb vec)

/-! ### Result recorder (`save_prediction`) -/

/-- A value of the `values` dictionary: the validated numeric entries plus
the `Outcome` string that `save_prediction` adds. -/
inductive Cell
  | num (v : ℚ)
  | str (s : String)
deriving DecidableEq, Repr

/-- Python dictionary assignment `d[k] = v`: overwrite in place when the key
exists, append otherwise. -/
def dictSet (m : List (String × Cell)) (k : String) (v : Cell) : List (String × Cell) :=
  if ∃ kv ∈ m, kv.1 = k then
    m.map (fun kv => if kv.1 = k then (k, v) else kv)
  else m ++ [(k, v)]

/-- Python `str` of a float value (always with a decimal point). -/
def pyFloatStr (q : ℚ) : String :=
  if q.den = 1 then toString q.num ++ ".0" else pyShow q

/-- Rendering of one dictionary value as a CSV cell. -/
def cellStr : Cell → String
  | .num v => pyFloatStr v
  | .str s => s

/-- `save_prediction` from the source, on its data: mutates the caller's
dictionary with `values['Outcome'] = outcome`, then appends the one-row
frame to the CSV file, writing the header row only when no file exists at
the path (`header=not file_path.exists()`).  The file is modelled as the
list of its rows (`none` = no file at the path); the function returns the
mutated dictionary and the new file contents. -/
def save_prediction (outcome : String) (values : List (String × Cell))
    (file : Option (List (List String))) :
    List (String × Cell) × List (List String) :=
  let vals := dictSet values "Outcome" (.str outcome)
  let row := vals.map (fun kv => cellStr kv.2)
  match file with
  | none => (vals, [vals.map (fun kv => kv.1), row])
  | some rows => (vals, rows ++ [row])

/-- Observable result of one `save_prediction` call as the caller sees it:
whether an exception propagated out of the call, and the error dialog
shown, if any. -/
structure SaveAttempt where
  raisedToCaller : Bool
  errorDialog : Option String
deriving DecidableEq, Repr

/-- The `try/except` wrapper of `save_prediction`: `writeResult` abstracts
whether `df.to_csv` raised.  The `except` branch logs, shows a dialog and
falls through, so the function returns normally on both paths. -/
def save_prediction_outcome (writeResult : Except String Unit) : SaveAttempt :=
  match writeResult with
  | .ok _ => ⟨false, none⟩
  | .error e => ⟨false, some ("Could not save prediction: " ++ e)⟩

/-! ### Batch prediction (`batch_predict`) -/

/-- An input table: column names and rows of numeric cells. -/
structure Frame where
  columns : List String
  rows : List (List ℚ)
deriving DecidableEq, Repr

/-- `required_columns = list(FIELD_RANGES.keys())`. -/
def required_columns : List String := FIELD_RANGES.map (fun fr => fr.1)

/-- Selection `data[required_columns]` of one row: the required columns in
declared order. -/
def frameVec (f : Frame) (r : List ℚ) : List ℚ :=
  required_columns.map (fun c => r.getD (f.columns.indexOf c) 0)

/-- `batch_predict` from the source, on its data: if any required column is
absent the whole batch fails with the missing-column error and nothing is
predicted or written; otherwise every row is scored and the table is
augmented with `Predicted_Outcome` and `Probability` columns. -/
def batch_predict (m : PredModel) (data : Frame) : Except (List String) Frame :=
  if ∀ c ∈ required_columns, c ∈ data.columns then
    .ok { columns := data.columns ++ ["Predicted_Outcome", "Probability"],
          rows := data.rows.map (fun r =>
            r ++ [((m.predictClass (frameVec data r) : ℤ) : ℚ),
                  m.posProb (frameVec data r)]) }
  else
    .error (required_columns.filter (fun c => decide (c ∉ data.columns)))

/-! ### Credential store (`UserDatabase`) -/

/-- One row of the `users` table. -/
structure UserRow where
  username : String
  password : String
  email : String
  full_name : String
deriving DecidableEq, Repr

/-- `UserDatabase.hash_password`:
`hashlib.sha256(password.encode()).hexdigest()`. -/
def hash_password (p : String) : String := sha256Hex (utf8Encode p)

/-- Characters allowed by `[a-zA-Z0-9._%+-]` (the local part). -/
def isLocalChar (c : Char) : Bool :=
  c.isAlphanum || c == '.' || c == '_' || c == '%' || c == '+' || c == '-'

/-- Characters allowed by `[a-zA-Z0-9.-]` (the domain part). -/
def isDomainChar (c : Char) : Bool := c.isAlphanum || c == '.' || c == '-'

/-- Match of the part after `@` against `[a-zA-Z0-9.-]+\.[a-zA-Z]{2,}`,
anchored at both ends: some dot splits it into a non-empty domain of
domain characters and an alphabetic top level of length at least two. -/
def domainTldMatch (l : List Char) : Bool :=
  (List.range l.length).any (fun i =>
    l.getD i '0' == '.' && i != 0 &&
    (l.take i).all isDomainChar &&
    decide (i + 3 ≤ l.length) &&
    (l.drop (i + 1)).all Char.isAlpha)

/-- Split a character list at every occurrence of the given character
(the pieces between occurrences, like `str.split` on one character). -/
def splitOnChar (c : Char) : List Char → List (List Char)
  | [] => [[]]
  | a :: rest =>
    match splitOnChar c rest with
    | [] => if a = c then [[], []] else [[a]]
    | h :: t => if a = c then [] :: h :: t else (a :: h) :: t

/-- `UserDatabase.validate_email`: match of the whole string against
`^[a-zA-Z0-9._%+-]+@[a-zA-Z0-9.-]+\.[a-zA-Z]{2,}$`.  No character class
contains `@`, so the string must contain exactly one `@`, with the local
part matching its class and the rest matching the domain pattern. -/
def validate_email (email : String) : Bool :=
  match splitOnChar '@' email.data with
  | [loc, dom] => !loc.isEmpty && loc.all isLocalChar && domainTldMatch dom
  | _ => false

/-- The outcome of one `register_user` call, one variant per `return`
site of the source. -/
inductive RegOutcome
  | missingField
  | usernameTooShort
  | passwordTooShort
  | invalidEmail
  | usernameTaken
  | emailTaken
  | success
deriving DecidableEq, Repr

/-- `UserDatabase.register_user` on the table state: the checks in source
order (`all([...])` non-empty fields, username length, password length,
email format, username uniqueness, email uniqueness), each failing return
leaving the table untouched; on success the row with the hashed password
is inserted. -/
def register_user (db : List UserRow) (username password email full_name : String) :
    RegOutcome × List UserRow :=
  if username = "" ∨ password = "" ∨ email = "" ∨ full_name = "" then
    (.missingField, db)
  else if username.length < 4 then (.usernameTooShort, db)
  else if password.length < 8 then (.passwordTooShort, db)
  else if validate_email email = false then (.invalidEmail, db)
  else if ∃ r ∈ db, r.username = username then (.usernameTaken, db)
  else if ∃ r ∈ db, r.email = email then (.emailTaken, db)
  else (.success, db ++ [⟨username, hash_password password, email, full_name⟩])

/-- The dialog text of the failing branch of `authenticate_user`. -/
def loginFailMsg : String := "Invalid username or password"

/-- `UserDatabase.authenticate_user` on the table state: look up the row of
the username (`fetchone` on the primary key), succeed exactly when a row
was found and its stored password equals the hash of the supplied one;
otherwise show the one failure dialog and return false.  The result is the
full caller-observable pair (return value, dialog). -/
def authenticate_user (db : List UserRow) (username password : String) :
    Bool × Option String :=
  match db.find? (fun r => r.username == username) with
  | some row =>
    if row.password == hash_password password then (true, none)
    else (false, some loginFailMsg)
  | none => (false, some loginFailMsg)

/-! ### Helper lemmas -/

lemma checkField_num_ok {f : String} {lo hi v : ℚ} (h1 : lo ≤ v) (h2 : v ≤ hi) :
    checkField f lo hi (.num v) = .ok v := by
  simp [checkField, h1, h2]

lemma checkField_num_err {f : String} {lo hi v : ℚ} (h : v < lo ∨ hi < v) :
    checkField f lo hi (.num v) = .error (.rangeError f lo hi) := by
  have hc : ¬(lo ≤ v ∧ v ≤ hi) := by
    rcases h with h | h
    · exact fun hc => absurd hc.1 (not_le.mpr h)
    · exact fun hc => absurd hc.2 (not_le.mpr h)
  simp [checkField, hc]

lemma FIELD_RANGES_lo_le_hi : ∀ f lo hi, (f, lo, hi) ∈ FIELD_RANGES → lo ≤ hi := by
  intro f lo hi h
  fin_cases h <;> norm_num

lemma checkField_ok_iff {f : String} {lo hi v : ℚ} {e : RawEntry} :
    checkField f lo hi e = .ok v ↔ e = .num v ∧ lo ≤ v ∧ v ≤ hi := by
  cases e with
  | nonNum s => simp [checkField]
  | num w =>
    by_cases h : lo ≤ w ∧ w ≤ hi
    · simp only [checkField, if_pos h]
      constructor
      · rintro hv
        cases hv
        exact ⟨rfl, h⟩
      · rintro ⟨hv, _⟩
        cases hv
        rfl
    · simp only [checkField, if_neg h]
      constructor
      · intro hv
        cases hv
      · rintro ⟨hv, hb⟩
        cases hv
        exact absurd hb h

lemma validateZip_append_err (l1 : List ((String × ℚ × ℚ) × RawEntry))
    (pe : (String × ℚ × ℚ) × RawEntry) (l2 : List ((String × ℚ × ℚ) × RawEntry))
    (err : VError)
    (hok : ∀ q ∈ l1, ∃ v, checkField q.1.1 q.1.2.1 q.1.2.2 q.2 = .ok v)
    (herr : checkField pe.1.1 pe.1.2.1 pe.1.2.2 pe.2 = .error err) :
    validateZip (l1 ++ pe :: l2) = .error err := by
  induction l1 with
  | nil => simp [validateZip, herr]
  | cons q l ih =>
    obtain ⟨v, hv⟩ := hok q (by simp)
    have ih2 := ih (fun q hq => hok q (by simp [hq]))
    simp [validateZip, hv, ih2]

lemma validateZip_ok_iff (l : List ((String × ℚ × ℚ) × RawEntry))
    (vals : List (String × ℚ)) :
    validateZip l = .ok vals ↔
      (∀ q ∈ l, checkField q.1.1 q.1.2.1 q.1.2.2 q.2 = .ok (entryVal q.2)) ∧
      vals = l.map (fun q => (q.1.1, entryVal q.2)) := by
  induction l generalizing vals with
  | nil =>
    simp only [validateZip, List.map_nil, List.not_mem_nil, false_implies, implies_true,
      true_and]
    constructor
    · rintro hv
      cases hv
      rfl
    · rintro rfl
      rfl
  | cons q l ih =>
    cases hc : checkField q.1.1 q.1.2.1 q.1.2.2 q.2 with
    | error e =>
      simp only [validateZip, hc]
      constructor
      · intro hv
        cases hv
      · rintro ⟨hall, _⟩
        have := hall q (by simp)
        rw [hc] at this
        cases this
    | ok v =>
      obtain ⟨hq2, _, _⟩ := checkField_ok_iff.mp hc
      have hval : entryVal q.2 = v := by rw [hq2]; rfl
      cases hrec : validateZip l with
      | error e =>
        simp only [validateZip, hc, hrec]
        constructor
        · intro hv
          cases hv
        · rintro ⟨hall, _⟩
          have h2 := (ih (l.map (fun q => (q.1.1, entryVal q.2)))).mpr
            ⟨fun r hr => hall r (by simp [hr]), rfl⟩
          rw [hrec] at h2
          cases h2
      | ok vs =>
        obtain ⟨hall, hvs⟩ := (ih vs).mp hrec
        simp only [validateZip, hc, hrec]
        constructor
        · rintro hv
          cases hv
          refine ⟨?_, by simp [hval, hvs]⟩
          intro r hr
          rcases List.mem_cons.mp hr with rfl | hr2
          · rw [hc, hval]
          · exact hall r hr2
        · rintro ⟨_, rfl⟩
          simp [hval, hvs]

lemma register_success_inv {db : List UserRow} {u p e fn : String} {db2 : List UserRow}
    (h : register_user db u p e fn = (.success, db2)) :
    db2 = db ++ [⟨u, hash_password p, e, fn⟩] ∧ ∀ r ∈ db, r.username ≠ u := by
  unfold register_user at h
  split_ifs at h with h1 h2 h3 h4 h5 h6
  · simp at h
  · simp at h
  · simp at h
  · simp at h
  · simp at h
  · simp at h
  · exact ⟨(congrArg Prod.snd h).symm, fun r hr hru => h5 ⟨r, hr, hru⟩⟩

lemma find?_append_of_none {α : Type} (p : α → Bool) {l1 : List α} (l2 : List α)
    (h : ∀ x ∈ l1, p x = false) : (l1 ++ l2).find? p = l2.find? p := by
  induction l1 with
  | nil => rfl
  | cons a l ih =>
    have ha := h a (by simp)
    simp only [List.cons_append, List.find?, ha]
    exact ih (fun x hx => h x (by simp [hx]))

lemma word8Hex_length (w : Nat) : (word8Hex w).length = 8 := by
  simp [word8Hex]

lemma sha256Words_length (msg : List Nat) : (sha256Words msg).length = 8 := by
  simp [sha256Words]

lemma flatten_word8Hex_length (ws : List Nat) :
    ((ws.map word8Hex).flatten).length = 8 * ws.length := by
  induction ws with
  | nil => simp
  | cons w ws ih =>
    simp [word8Hex_length, ih]
    ring

lemma sha256Hex_length (msg : List Nat) : (sha256Hex msg).length = 64 := by
  have h1 : (sha256Hex msg).length = ((sha256Words msg).map word8Hex).flatten.length :=
    rfl
  rw [h1, flatten_word8Hex_length, sha256Words_length]

/-! ### Claim theorems -/

/-- C1: for every validated 8-entry feature vector, `predict_diabetes`
returns outcome `"Diabetic"` iff the model's discrete class output
(`model.predict(...)[0]`) equals 1, and the reported probability is the
model's positive-class probability (`model.predict_proba(...)[0][1]`);
in particular the example vector scored by a model that classifies it
class 0 with probability 0.12 yields (`"Non-Diabetic"`, 0.12). -/
theorem predict_outcome_iff_class :
    (∀ (m : PredModel) (entries : List RawEntry) (values : List (String × ℚ)),
      validate_inputs entries = .ok values →
      ∃ o prob, predict_diabetes m entries = .ok (o, prob) ∧
        (o = "Diabetic" ↔ m.predictClass (inputVector values) = 1) ∧
        prob = m.posProb (inputVector values)) ∧
    predict_diabetes ⟨fun _ => 0, fun _ => mkRat 12 100⟩
        [.num 2, .num 120, .num 70, .num 20, .num 80, .num 25, .num (mkRat 1 2), .num 30] =
      .ok ("Non-Diabetic", mkRat 12 100) := by
  constructor
  · intro m entries values h
    refine ⟨if m.predictClass (inputVector values) = 1 then "Diabetic" else "Non-Diabetic",
      m.posProb (inputVector values), by simp [predict_diabetes, h], ?_, rfl⟩
    by_cases hc : m.predictClass (inputVector values) = 1
    · simp [hc]
    · simp only [hc, if_false, iff_false]
      intro habs
      rw [show ("Non-Diabetic" = "Diabetic") ↔ False by simp] at habs
      exact habs
  · decide

/-- Witness for C1 at the example model and vector of the spec. -/
theorem predict_outcome_iff_class_witness :
    ∃ o prob,
      predict_diabetes ⟨fun _ => 0, fun _ => mkRat 12 100⟩
          [.num 2, .num 120, .num 70, .num 20, .num 80, .num 25, .num (mkRat 1 2), .num 30] =
        .ok (o, prob) ∧
      (o = "Diabetic" ↔
        PredModel.predictClass ⟨fun _ => 0, fun _ => mkRat 12 100⟩
          (inputVector [("Pregnancies", 2), ("Glucose", 120), ("Blood Pressure", 70),
            ("Skin Thickness", 20), ("Insulin", 80), ("BMI", 25),
            ("Diabetes Pedigree", mkRat 1 2), ("Age", 30)]) = 1) ∧
      prob = PredModel.posProb ⟨fun _ => 0, fun _ => mkRat 12 100⟩
          (inputVector [("Pregnancies", 2), ("Glucose", 120), ("Blood Pressure", 70),
            ("Skin Thickness", 20), ("Insulin", 80), ("BMI", 25),
            ("Diabetes Pedigree", mkRat 1 2), ("Age", 30)]) :=
  predict_outcome_iff_class.1 ⟨fun _ => 0, fun _ => mkRat 12 100⟩
    [.num 2, .num 120, .num 70, .num 20, .num 80, .num 25, .num (mkRat 1 2), .num 30]
    [("Pregnancies", 2), ("Glucose", 120), ("Blood Pressure", 70),
     ("Skin Thickness", 20), ("Insulin", 80), ("BMI", 25),
     ("Diabetes Pedigree", mkRat 1 2), ("Age", 30)] (by decide)

/-- C2: for every declared field, a value equal to the field's minimum or
maximum bound passes the check (bounds inclusive), a value strictly below
the minimum or strictly above the maximum fails with the range error
carrying that field and its bounds, whose message names the field and both
bounds; and the full form with every field at its minimum (resp. maximum)
validates successfully. -/
theorem validation_bounds_inclusive :
    (∀ f lo hi, (f, lo, hi) ∈ FIELD_RANGES → ∀ v : ℚ,
      ((v = lo ∨ v = hi) → checkField f lo hi (.num v) = .ok v) ∧
      ((v < lo ∨ hi < v) →
        checkField f lo hi (.num v) = .error (.rangeError f lo hi))) ∧
    (∀ f lo hi, errMsg (.rangeError f lo hi) =
      "Invalid " ++ f ++ ": " ++ f ++ " must be between " ++
        pyShow lo ++ " and " ++ pyShow hi) ∧
    validate_inputs (FIELD_RANGES.map (fun fr => RawEntry.num fr.2.1)) =
      .ok (FIELD_RANGES.map (fun fr => (fr.1, fr.2.1))) ∧
    validate_inputs (FIELD_RANGES.map (fun fr => RawEntry.num fr.2.2)) =
      .ok (FIELD_RANGES.map (fun fr => (fr.1, fr.2.2))) := by
  refine ⟨?_, fun f lo hi => rfl, by decide, by decide⟩
  intro f lo hi hmem v
  have hle := FIELD_RANGES_lo_le_hi f lo hi hmem
  refine ⟨?_, checkField_num_err⟩
  rintro (rfl | rfl)
  · exact checkField_num_ok le_rfl hle
  · exact checkField_num_ok hle le_rfl

/-- Witness for C2 on the Glucose field at its bounds. -/
theorem validation_bounds_inclusive_witness :
    checkField "Glucose" 0 300 (.num 300) = .ok 300 ∧
    checkField "Glucose" 0 300 (.num 301) = .error (.rangeError "Glucose" 0 300) ∧
    checkField "Glucose" 0 300 (.num 0) = .ok 0 :=
  ⟨(validation_bounds_inclusive.1 "Glucose" 0 300 (by norm_num [FIELD_RANGES]) 300).1
      (Or.inr rfl),
   (validation_bounds_inclusive.1 "Glucose" 0 300 (by norm_num [FIELD_RANGES]) 301).2
      (Or.inr (by norm_num)),
   (validation_bounds_inclusive.1 "Glucose" 0 300 (by norm_num [FIELD_RANGES]) 0).1
      (Or.inl rfl)⟩

/-- C3: validation walks the fields in declaration order (the zip with
`FIELD_RANGES`) and aborts at the first failing field; a non-numeric entry
fails with a parse error, which is a different error from the range error
of an out-of-bounds numeric entry; a full 8-entry dictionary is returned
exactly when every field parses and lies within bounds, and an error
returns no partial dictionary. -/
theorem validation_first_failure :
    (∀ entries, validate_inputs entries = validateZip (FIELD_RANGES.zip entries)) ∧
    (∀ l1 pe l2 err,
      (∀ q ∈ l1, ∃ v, checkField q.1.1 q.1.2.1 q.1.2.2 q.2 = .ok v) →
      checkField pe.1.1 pe.1.2.1 pe.1.2.2 pe.2 = .error err →
      validateZip (l1 ++ pe :: l2) = .error err) ∧
    (∀ f lo hi raw, checkField f lo hi (.nonNum raw) = .error (.parseError f raw)) ∧
    (∀ f raw g lo hi, VError.parseError f raw ≠ VError.rangeError g lo hi) ∧
    (∀ entries vals, validate_inputs entries = .ok vals ↔
      ((∀ q ∈ FIELD_RANGES.zip entries,
          checkField q.1.1 q.1.2.1 q.1.2.2 q.2 = .ok (entryVal q.2)) ∧
        vals = (FIELD_RANGES.zip entries).map (fun q => (q.1.1, entryVal q.2)))) ∧
    (∀ entries vals, 8 ≤ entries.length → validate_inputs entries = .ok vals →
      vals.length = 8) := by
  refine ⟨fun entries => rfl, validateZip_append_err, fun f lo hi raw => rfl,
    fun f raw g lo hi h => VError.noConfusion h,
    fun entries vals => validateZip_ok_iff _ _, ?_⟩
  intro entries vals hlen hok
  obtain ⟨-, rfl⟩ := (validateZip_ok_iff _ _).mp hok
  simp [List.length_zip, FIELD_RANGES]
  omega

/-- Witness for C3: a non-numeric Glucose entry aborts validation with the
parse error before the out-of-bounds Blood Pressure entry is reached. -/
theorem validation_first_failure_witness :
    validateZip ([(("Pregnancies", 0, 20), RawEntry.num 2)] ++
        (("Glucose", 0, 300), RawEntry.nonNum "abc") ::
        [(("Blood Pressure", 0, 200), RawEntry.num 999)]) =
      .error (.parseError "Glucose" "abc") :=
  validation_first_failure.2.1 [(("Pregnancies", 0, 20), RawEntry.num 2)]
    (("Glucose", 0, 300), RawEntry.nonNum "abc")
    [(("Blood Pressure", 0, 200), RawEntry.num 999)]
    (.parseError "Glucose" "abc")
    (by
      intro q hq
      simp only [List.mem_singleton] at hq
      subst hq
      exact ⟨2, by decide⟩)
    (by decide)

/-- C4: after a successful registration, authenticating with the same
username and password returns true; authenticating with any password whose
SHA-256 digest differs (collision-freeness is the idealization the code
relies on) returns the single failure outcome, and so does authenticating
a never-registered username — the two failures are the identical
observable pair (return value and dialog), indistinguishable to the
caller. -/
theorem register_then_authenticate :
    ∀ db u p e fn db2, register_user db u p e fn = (.success, db2) →
      authenticate_user db2 u p = (true, none) ∧
      (∀ p2, hash_password p2 ≠ hash_password p →
        authenticate_user db2 u p2 = (false, some loginFailMsg)) ∧
      (∀ db0 u0 p0, (∀ r ∈ db0, r.username ≠ u0) →
        authenticate_user db0 u0 p0 = (false, some loginFailMsg)) := by
  intro db u p e fn db2 h
  obtain ⟨rfl, hnotin⟩ := register_success_inv h
  have hfind : (db ++ [(⟨u, hash_password p, e, fn⟩ : UserRow)]).find?
      (fun r => r.username == u) = some ⟨u, hash_password p, e, fn⟩ := by
    rw [find?_append_of_none _ _ (fun r hr => beq_eq_false_iff_ne.mpr (hnotin r hr))]
    simp [List.find?]
  refine ⟨by simp [authenticate_user, hfind], ?_, ?_⟩
  · intro p2 hp2
    simp [authenticate_user, hfind, Ne.symm hp2]
  · intro db0 u0 p0 h0
    have hnone : db0.find? (fun r => r.username == u0) = none := by
      rw [List.find?_eq_none]
      intro x hx
      simpa using h0 x hx
    simp [authenticate_user, hnone]

/-- Witness for C4 with a concrete registered account. -/
theorem register_then_authenticate_witness :
    authenticate_user [⟨"alice123", hash_password "mypassword1",
        "alice@mail.com", "Alice A"⟩] "alice123" "mypassword1" = (true, none) ∧
    authenticate_user [⟨"alice123", hash_password "mypassword1",
        "alice@mail.com", "Alice A"⟩] "alice123" "hunter2hunter2" =
      (false, some loginFailMsg) ∧
    authenticate_user [] "ghost" "anypassword" = (false, some loginFailMsg) := by
  have h := register_then_authenticate [] "alice123" "mypassword1" "alice@mail.com"
    "Alice A" [⟨"alice123", hash_password "mypassword1", "alice@mail.com", "Alice A"⟩]
    (by decide)
  exact ⟨h.1, h.2.1 "hunter2hunter2" (by decide),
    h.2.2 [] "ghost" "anypassword" (by simp)⟩

/-- C5: `register_user` runs its checks in source order — all four fields
non-empty, username length at least 4, password length at least 8, email
format, username not taken, email not taken — returns the specific failure
of the first violated rule, leaves the store unchanged on every failure,
and inserts exactly the new record on success. -/
theorem register_checks_in_order :
    ∀ db u p e fn,
      ((register_user db u p e fn).1 ≠ .success →
        (register_user db u p e fn).2 = db) ∧
      ((register_user db u p e fn).1 = .success →
        (register_user db u p e fn).2 = db ++ [⟨u, hash_password p, e, fn⟩]) ∧
      ((register_user db u p e fn).1 = .missingField ↔
        (u = "" ∨ p = "" ∨ e = "" ∨ fn = "")) ∧
      ((register_user db u p e fn).1 = .usernameTooShort ↔
        ¬(u = "" ∨ p = "" ∨ e = "" ∨ fn = "") ∧ u.length < 4) ∧
      ((register_user db u p e fn).1 = .passwordTooShort ↔
        ¬(u = "" ∨ p = "" ∨ e = "" ∨ fn = "") ∧ ¬u.length < 4 ∧ p.length < 8) ∧
      ((register_user db u p e fn).1 = .invalidEmail ↔
        ¬(u = "" ∨ p = "" ∨ e = "" ∨ fn = "") ∧ ¬u.length < 4 ∧ ¬p.length < 8 ∧
          validate_email e = false) ∧
      ((register_user db u p e fn).1 = .usernameTaken ↔
        ¬(u = "" ∨ p = "" ∨ e = "" ∨ fn = "") ∧ ¬u.length < 4 ∧ ¬p.length < 8 ∧
          validate_email e = true ∧ (∃ r ∈ db, r.username = u)) ∧
      ((register_user db u p e fn).1 = .emailTaken ↔
        ¬(u = "" ∨ p = "" ∨ e = "" ∨ fn = "") ∧ ¬u.length < 4 ∧ ¬p.length < 8 ∧
          validate_email e = true ∧ ¬(∃ r ∈ db, r.username = u) ∧
          (∃ r ∈ db, r.email = e)) ∧
      ((register_user db u p e fn).1 = .success ↔
        ¬(u = "" ∨ p = "" ∨ e = "" ∨ fn = "") ∧ ¬u.length < 4 ∧ ¬p.length < 8 ∧
          validate_email e = true ∧ ¬(∃ r ∈ db, r.username = u) ∧
          ¬(∃ r ∈ db, r.email = e)) := by
  intro db u p e fn
  unfold register_user
  split_ifs with h1 h2 h3 h4 h5 h6 <;> simp_all

/-- Witness for C5: a too-short username is rejected with the specific
failure and the store stays empty. -/
theorem register_checks_in_order_witness :
    (register_user [] "abc" "longpassword9" "a@b.co" "Xy Z").2 = [] ∧
    (register_user [] "abc" "longpassword9" "a@b.co" "Xy Z").1 =
      .usernameTooShort := by
  have h := register_checks_in_order [] "abc" "longpassword9" "a@b.co" "Xy Z"
  exact ⟨h.1 (by decide), (h.2.2.2.1).mpr (by decide)⟩

/-- C6: when any declared field column is absent from the input table, the
whole batch fails with the error listing exactly the missing required
columns, the result does not depend on the model (no prediction is
performed), and no output table is produced. -/
theorem batch_missing_columns :
    ∀ (m : PredModel) (data : Frame), (∃ c ∈ required_columns, c ∉ data.columns) →
      batch_predict m data =
        .error (required_columns.filter (fun c => decide (c ∉ data.columns))) ∧
      (∀ c, c ∈ required_columns.filter (fun c => decide (c ∉ data.columns)) ↔
        (c ∈ required_columns ∧ c ∉ data.columns)) ∧
      (∀ m2 : PredModel, batch_predict m2 data = batch_predict m data) ∧
      (∀ out, batch_predict m data ≠ .ok out) := by
  intro m data hmiss
  have hcond : ¬∀ c ∈ required_columns, c ∈ data.columns := by
    obtain ⟨c, hc, hnc⟩ := hmiss
    exact fun h => hnc (h c hc)
  have hbp : ∀ m1 : PredModel, batch_predict m1 data =
      .error (required_columns.filter (fun c => decide (c ∉ data.columns))) := by
    intro m1
    simp only [batch_predict, if_neg hcond]
  refine ⟨hbp m, ?_, fun m2 => (hbp m2).trans (hbp m).symm, ?_⟩
  · intro c
    simp [List.mem_filter]
  · intro out
    rw [hbp m]
    simp

/-- Witness for C6: a table lacking only the Glucose column fails with
exactly that column reported missing. -/
theorem batch_missing_columns_witness :
    batch_predict ⟨fun _ => 0, fun _ => 0⟩
        ⟨["Pregnancies", "Blood Pressure", "Skin Thickness", "Insulin", "BMI",
          "Diabetes Pedigree", "Age"], []⟩ = .error ["Glucose"] := by
  have h := batch_missing_columns ⟨fun _ => 0, fun _ => 0⟩
    ⟨["Pregnancies", "Blood Pressure", "Skin Thickness", "Insulin", "BMI",
      "Diabetes Pedigree", "Age"], []⟩ ⟨"Glucose", by decide, by decide⟩
  exact h.1.trans (congrArg Except.error (by decide))

/-- C7: `save_prediction` writes the header row only when no file exists at
the path; two consecutive calls starting from an absent file produce
exactly one header row followed by the two data rows in call order, and a
call on an existing file appends exactly its one data row. -/
theorem append_header_once :
    ∀ o1 o2 (v1 v2 : List (String × Cell)),
      (save_prediction o1 v1 none).2 =
        [(dictSet v1 "Outcome" (.str o1)).map (fun kv => kv.1),
         (dictSet v1 "Outcome" (.str o1)).map (fun kv => cellStr kv.2)] ∧
      (save_prediction o2 v2 (some (save_prediction o1 v1 none).2)).2 =
        [(dictSet v1 "Outcome" (.str o1)).map (fun kv => kv.1),
         (dictSet v1 "Outcome" (.str o1)).map (fun kv => cellStr kv.2),
         (dictSet v2 "Outcome" (.str o2)).map (fun kv => cellStr kv.2)] ∧
      (∀ rows, (save_prediction o2 v2 (some rows)).2 =
        rows ++ [(dictSet v2 "Outcome" (.str o2)).map (fun kv => cellStr kv.2)]) :=
  fun _ _ _ _ => ⟨rfl, rfl, fun _ => rfl⟩

/-- C8 counterexample: the stored password is not salted — two different
accounts registered with the same password store the identical value,
namely the plain SHA-256 hex digest of the password, a function of the
password alone. -/
theorem stored_password_unsalted :
    ((register_user ((register_user [] "alice123" "sharedpass9" "alice@mail.com"
          "Alice A").2) "bobby456" "sharedpass9" "bobby@mail.com" "Bob B").2.map
        (fun r => r.password)) =
      [hash_password "sharedpass9", hash_password "sharedpass9"] ∧
    hash_password "sharedpass9" = sha256Hex (utf8Encode "sharedpass9") :=
  ⟨rfl, rfl⟩

/-- C8 amended: every successful registration stores the (unsalted)
SHA-256 hex digest of the supplied password; the stored value is a
64-character string, so it differs from any plaintext password whose
length is not 64, and the all-rows-are-digests invariant is preserved by
registration, the only operation that writes to the store. -/
theorem stored_password_hashed :
    ∀ db u p e fn db2, register_user db u p e fn = (.success, db2) →
      db2 = db ++ [⟨u, hash_password p, e, fn⟩] ∧
      hash_password p = sha256Hex (utf8Encode p) ∧
      (hash_password p).length = 64 ∧
      (p.length ≠ 64 → hash_password p ≠ p) ∧
      ((∀ r ∈ db, ∃ q, r.password = hash_password q) →
        ∀ r ∈ db2, ∃ q, r.password = hash_password q) := by
  intro db u p e fn db2 h
  obtain ⟨rfl, -⟩ := register_success_inv h
  refine ⟨rfl, rfl, sha256Hex_length _, ?_, ?_⟩
  · intro hlen heq
    apply hlen
    calc p.length = (hash_password p).length := (congrArg String.length heq).symm
      _ = 64 := sha256Hex_length _
  · intro hinv r hr
    rcases List.mem_append.mp hr with h1 | h2
    · exact hinv r h1
    · simp only [List.mem_singleton] at h2
      subst h2
      exact ⟨p, rfl⟩

/-- Witness for C8 (amended) at a concrete registration. -/
theorem stored_password_hashed_witness :
    (hash_password "mypassword1").length = 64 ∧
    hash_password "mypassword1" ≠ "mypassword1" := by
  have h := stored_password_hashed [] "alice123" "mypassword1" "alice@mail.com"
    "Alice A" [⟨"alice123", hash_password "mypassword1", "alice@mail.com", "Alice A"⟩]
    (by decide)
  exact ⟨h.2.2.1, h.2.2.2.1 (by decide)⟩

/-- C9 counterexample: when the underlying write fails, `save_prediction`
does not surface the error to its caller — the call returns normally
(no exception propagates), showing an error dialog instead. -/
theorem save_write_error_not_raised :
    save_prediction_outcome (.error "disk full") =
      ⟨false, some "Could not save prediction: disk full"⟩ ∧
    (save_prediction_outcome (.error "disk full")).raisedToCaller ≠ true :=
  ⟨rfl, by decide⟩

/-- C9 amended: on a write failure `save_prediction` catches the
exception, reports it through the save-error dialog, and returns normally
to the caller (no retry, no propagation); on success it returns normally
with no dialog. -/
theorem save_write_error_dialog :
    ∀ emsg, save_prediction_outcome (.error emsg) =
        ⟨false, some ("Could not save prediction: " ++ emsg)⟩ ∧
      save_prediction_outcome (.ok ()) = ⟨false, none⟩ :=
  fun _ => ⟨rfl, rfl⟩

/-- C10: `save_prediction` mutates the dictionary its caller passed in:
the returned dictionary is the caller's with `Outcome` set, and since the
dictionaries produced by validation never contain an `Outcome` key, every
call made by `predict_diabetes` leaves the caller's dictionary with one
additional `Outcome` entry — the mapping does not stay unchanged. -/
theorem save_mutates_caller_values :
    ∀ outcome (values : List (String × Cell)) file,
      (save_prediction outcome values file).1 =
        dictSet values "Outcome" (.str outcome) ∧
      ((∀ kv ∈ values, kv.1 ≠ "Outcome") →
        (save_prediction outcome values file).1 =
          values ++ [("Outcome", .str outcome)] ∧
        (save_prediction outcome values file).1 ≠ values) ∧
      (∀ entries vals, validate_inputs entries = .ok vals →
        ∀ kv ∈ vals.map (fun v => (v.1, Cell.num v.2)), kv.1 ≠ "Outcome") := by
  intro outcome values file
  have h1 : (save_prediction outcome values file).1 =
      dictSet values "Outcome" (.str outcome) := by
    cases file <;> rfl
  refine ⟨h1, ?_, ?_⟩
  · intro hno
    have hcond : ¬∃ kv ∈ values, kv.1 = "Outcome" := by
      rintro ⟨kv, hkv, heq⟩
      exact hno kv hkv heq
    have h2 : dictSet values "Outcome" (.str outcome) =
        values ++ [("Outcome", .str outcome)] := by
      simp only [dictSet, if_neg hcond]
    refine ⟨h1.trans h2, ?_⟩
    rw [h1, h2]
    intro habs
    have := congrArg List.length habs
    simp at this
  · intro entries vals hok kv hkv
    obtain ⟨-, rfl⟩ := (validateZip_ok_iff _ _).mp hok
    simp only [List.mem_map] at hkv
    obtain ⟨v, hv, rfl⟩ := hkv
    obtain ⟨q, hq, rfl⟩ := hv
    have hq2 : (q.1, q.2) ∈ FIELD_RANGES.zip entries := by simpa using hq
    have hmem := (List.of_mem_zip hq2).1
    have hout : ∀ fr ∈ FIELD_RANGES, fr.1 ≠ "Outcome" := by decide
    exact hout q.1 hmem

/-- Witness for C10 at a concrete dictionary. -/
theorem save_mutates_caller_values_witness :
    (save_prediction "Non-Diabetic" [("Pregnancies", Cell.num 2)] none).1 =
      [("Pregnancies", Cell.num 2)] ++ [("Outcome", Cell.str "Non-Diabetic")] ∧
    (save_prediction "Non-Diabetic" [("Pregnancies", Cell.num 2)] none).1 ≠
      [("Pregnancies", Cell.num 2)] := by
  have h := (save_mutates_caller_values "Non-Diabetic"
    [("Pregnancies", Cell.num 2)] none).2.1 (by decide)
  exact ⟨h.1, h.2⟩

end DiabetesApp
